import Mathlib

/-!
Shallow embedding of the `marketing_storyline` pipeline.

Modelling conventions, used throughout:
* Python `str` values are modelled as `List Char`; string literals enter the
  embedding through `String.data`.
* Python `float` is modelled as `ℚ` (the confidences handled by the code are
  decimal literals, which ℚ represents exactly).
* Python `int` is modelled as `Int`.
* Exceptions are modelled as `Except`: a raised `ValueError` / `LLMError`
  becomes an `Except.error` carrying the corresponding `PipelineError`.
* The network (HTTP status codes, response bodies) and the `json.loads`
  library call are inputs of the embedded functions, passed as explicit
  parameters, so that the repository's own control flow is total and
  executable.
-/

namespace MarketingStoryline

/-- The whitespace class of Python `str.split()` / `str.strip()` (the ASCII
part of `string.whitespace`: space, tab, newline, carriage return, vertical
tab, form feed). -/
def pyIsSpace (c : Char) : Bool :=
  c = ' ' || c = '\t' || c = '\n' || c = '\r' || c = '\x0b' || c = '\x0c'

/-- Accumulator pass of Python `str.split()` with no separator argument:
splits on runs of whitespace and never yields empty chunks.  `acc` holds the
characters of the word currently being read, in reverse order. -/
def pySplitGo : List Char → List Char → List (List Char)
  | [], acc => if acc = [] then [] else [acc.reverse]
  | c :: cs, acc =>
    if pyIsSpace c then
      if acc = [] then pySplitGo cs [] else acc.reverse :: pySplitGo cs []
    else
      pySplitGo cs (c :: acc)

/-- Python `s.split()`. -/
def pySplit (l : List Char) : List (List Char) := pySplitGo l []

/-- Python `sep.join(ws)`. -/
def pyJoinSep (sep : List Char) : List (List Char) → List Char
  | [] => []
  | w :: ws =>
    match ws with
    | [] => w
    | _ :: _ => w ++ sep ++ pyJoinSep sep ws

/-- Python `" ".join(ws)`. -/
def pyJoin (ws : List (List Char)) : List Char := pyJoinSep [' '] ws

/-- Python `s.rstrip()`. -/
def pyRStrip (l : List Char) : List Char := (l.reverse.dropWhile pyIsSpace).reverse

/-- Python `s.strip()`, realised as a leading strip followed by a trailing
strip (the two sides are independent, so the order does not matter). -/
def pyStrip (l : List Char) : List Char := pyRStrip (l.dropWhile pyIsSpace)

/-- Accumulator pass of Python `s.splitlines()`, restricted to the line
breaks that occur in this code base: `\r\n`, `\r` and `\n`. -/
def pySplitlinesGo : List Char → List Char → List (List Char)
  | [], acc => if acc = [] then [] else [acc.reverse]
  | '\r' :: '\n' :: cs, acc => acc.reverse :: pySplitlinesGo cs []
  | '\r' :: cs, acc => acc.reverse :: pySplitlinesGo cs []
  | '\n' :: cs, acc => acc.reverse :: pySplitlinesGo cs []
  | c :: cs, acc => pySplitlinesGo cs (c :: acc)

/-- Python `s.splitlines()`. -/
def pySplitlines (l : List Char) : List (List Char) := pySplitlinesGo l []

/-- Python `s[:-n]` for `n ≥ 0`: drop the last `n` characters (empty result
when `n ≥ len(s)`). -/
def pyDropEnd (n : Nat) (l : List Char) : List Char := (l.reverse.drop n).reverse

/-- `app/schemas.py` `MarketingFeature` (pydantic model).  The `type` field is
kept as its string value (the schema uses `use_enum_values = True`); the
pydantic bounds (`importance_rank ≥ 1`, `confidence ∈ [0,1]`) are enforced at
construction time in `to_marketing_feature` below. -/
structure MarketingFeature where
  id : List Char
  name : List Char
  type : List Char
  importance_rank : Int
  confidence : ℚ
  example_phrase : List Char
deriving DecidableEq

/-- `FeatureExtractor._names_similar` (`app/feature_extractor.py` lines
172-195): word-overlap (Jaccard) similarity of the whitespace-split word sets
of the two names, compared against the threshold; empty word sets are never
similar. -/
def names_similar (name1 name2 : List Char) (threshold : ℚ) : Bool :=
  if (pySplit name1).toFinset = ∅ ∨ (pySplit name2).toFinset = ∅ then
    false
  else
    decide (threshold ≤
      if 0 < ((pySplit name1).toFinset ∪ (pySplit name2).toFinset).card then
        (((pySplit name1).toFinset ∩ (pySplit name2).toFinset).card : ℚ) /
          (((pySplit name1).toFinset ∪ (pySplit name2).toFinset).card : ℚ)
      else 0)

/-- Loop of `FeatureExtractor._deduplicate_features` (lines 141-170): a greedy
order-preserving pass; `seen_names` collects the normalized (lower-cased,
stripped) names of the features kept so far, and a feature is dropped exactly
when its normalized name is similar (threshold 0.8) to some seen name. -/
def deduplicate_go : List MarketingFeature → List (List Char) → List MarketingFeature
  | [], _ => []
  | f :: fs, seen_names =>
    let normalized_name := pyStrip (f.name.map Char.toLower)
    if seen_names.any (fun seen => names_similar normalized_name seen (0.8 : ℚ)) then
      deduplicate_go fs seen_names
    else
      f :: deduplicate_go fs (normalized_name :: seen_names)

/-- `FeatureExtractor._deduplicate_features`. -/
def deduplicate_features (features : List MarketingFeature) : List MarketingFeature :=
  deduplicate_go features []

/-- The sort key of `FeatureExtractor._rank_features` (line 209), as a
relation: `f` sorts no later than `g` for the Python key
`(f.importance_rank, -f.confidence)` compared lexicographically. -/
def featureKeyLe (f g : MarketingFeature) : Prop :=
  f.importance_rank < g.importance_rank ∨
    (f.importance_rank = g.importance_rank ∧ g.confidence ≤ f.confidence)

instance : DecidableRel featureKeyLe := fun _ _ =>
  inferInstanceAs (Decidable (_ ∨ _))

instance : IsTotal MarketingFeature featureKeyLe where
  total f g := by
    rcases lt_trichotomy f.importance_rank g.importance_rank with h | h | h
    · exact Or.inl (Or.inl h)
    · rcases le_total g.confidence f.confidence with hc | hc
      · exact Or.inl (Or.inr ⟨h, hc⟩)
      · exact Or.inr (Or.inr ⟨h.symm, hc⟩)
    · exact Or.inr (Or.inl h)

instance : IsTrans MarketingFeature featureKeyLe where
  trans f g k hfg hgk := by
    rcases hfg with h1 | ⟨h1, hc1⟩
    · rcases hgk with h2 | ⟨h2, _⟩
      · exact Or.inl (h1.trans h2)
      · exact Or.inl (h2 ▸ h1)
    · rcases hgk with h2 | ⟨h2, hc2⟩
      · exact Or.inl (h1 ▸ h2)
      · exact Or.inr ⟨h1.trans h2, hc2.trans hc1⟩

/-- Rank-reassignment loop of `FeatureExtractor._rank_features` (lines
211-213): `enumerate` starting at `n`, overwriting `importance_rank`. -/
def renumber_from (n : Int) : List MarketingFeature → List MarketingFeature
  | [] => []
  | f :: fs => { f with importance_rank := n } :: renumber_from (n + 1) fs

/-- `FeatureExtractor._rank_features` (lines 197-215).  Python `list.sort` is
a stable sort; a stable sort with respect to a total preorder on the key is
extensionally unique, so it is modelled by `List.insertionSort` (which is
stable for ties).  After sorting, ranks are reassigned to `1..N`. -/
def rank_features (features : List MarketingFeature) : List MarketingFeature :=
  renumber_from 1 (List.insertionSort featureKeyLe features)

/-- A parsed storyline record as handed to
`StoryGenerator._post_process_storyline`: a JSON object in which every
expected field may be missing (`none`) or present (possibly empty). -/
structure RawStoryline where
  headline : Option (List Char)
  subhead : Option (List Char)
  hero_paragraph : Option (List Char)
  bulleted_features : Option (List (List Char))
  persona : Option (List Char)
  use_cases : Option (List (List Char))
  ctas : Option (List (List Char))
  email_subject : Option (List Char)
  email_body : Option (List Char)
  social_posts : Option (List (List Char))
deriving DecidableEq

/-- `app/schemas.py` `StorylineResponse` (all fields required, no further
constraints). -/
structure StorylineResponse where
  headline : List Char
  subhead : List Char
  hero_paragraph : List Char
  bulleted_features : List (List Char)
  persona : List Char
  use_cases : List (List Char)
  ctas : List (List Char)
  email_subject : List Char
  email_body : List Char
  social_posts : List (List Char)
deriving DecidableEq

/-- Default substitution of `_post_process_storyline` lines 190-194: a field
that is absent or falsy (empty string / empty list) is replaced by its
default. -/
def fill_field {β : Type} (v : Option (List β)) (d : List β) : List β :=
  match v with
  | none => d
  | some [] => d
  | some (x :: xs) => x :: xs

def default_headline : List Char := "Discover Your Perfect Solution".data

def default_subhead : List Char :=
  "Transform your experience with our innovative product".data

def default_hero_paragraph : List Char :=
  "Our product solves your challenges with innovative features designed for your success.".data

def default_bulleted_features : List (List Char) :=
  ["Key benefit 1".data, "Key benefit 2".data, "Key benefit 3".data]

def default_persona : List Char :=
  "Target customers who value quality and innovation".data

def default_use_cases : List (List Char) :=
  ["Primary use case".data, "Secondary use case".data]

def default_ctas : List (List Char) := ["Get Started Today".data, "Learn More".data]

def default_email_subject : List Char := "Transform your experience today".data

def default_email_body : List Char :=
  "Discover how our innovative solution can transform your experience.".data

def default_social_posts : List (List Char) :=
  ["Great solution for your needs!".data, "Transform your workflow with innovation.".data]

/-- `StoryGenerator._apply_length_constraints` (`app/story_generator.py`
lines 222-254).  For "short", an over-60-character headline becomes its first
60 characters plus `"..."`, and an over-100-word hero paragraph becomes its
first 100 words joined plus `"..."`.  The "long" branch only contains a
`pass`; any other value of `length` leaves the record unchanged. -/
def apply_length_constraints (s : StorylineResponse) (length : List Char) :
    StorylineResponse :=
  if length = "short".data then
    let s1 :=
      if 60 < s.headline.length then
        { s with headline := s.headline.take 60 ++ "...".data }
      else s
    let hero_words := pySplit s1.hero_paragraph
    if 100 < hero_words.length then
      { s1 with hero_paragraph := pyJoin (hero_words.take 100) ++ "...".data }
    else s1
  else
    s

/-- The record after the default-substitution loop of
`StoryGenerator._post_process_storyline` (lines 176-194). -/
def storyline_defaults_applied (d : RawStoryline) : StorylineResponse :=
  { headline := fill_field d.headline default_headline
    subhead := fill_field d.subhead default_subhead
    hero_paragraph := fill_field d.hero_paragraph default_hero_paragraph
    bulleted_features := fill_field d.bulleted_features default_bulleted_features
    persona := fill_field d.persona default_persona
    use_cases := fill_field d.use_cases default_use_cases
    ctas := fill_field d.ctas default_ctas
    email_subject := fill_field d.email_subject default_email_subject
    email_body := fill_field d.email_body default_email_body
    social_posts := fill_field d.social_posts default_social_posts }

/-- `StoryGenerator._post_process_storyline` (lines 159-220): apply defaults
for missing/falsy fields, apply length constraints, then pad the four
list-valued fields up to their minimum cardinalities.  The `tone` parameter
is accepted and unused, as in the source. -/
def post_process_storyline (d : RawStoryline) (tone length : List Char) :
    StorylineResponse :=
  let _ := tone
  let s := apply_length_constraints (storyline_defaults_applied d) length
  let s :=
    if s.bulleted_features.length < 3 then
      { s with bulleted_features :=
          s.bulleted_features ++
            List.replicate (3 - s.bulleted_features.length) "Additional benefit".data }
    else s
  let s :=
    if s.use_cases.length < 2 then
      { s with use_cases :=
          s.use_cases ++ List.replicate (2 - s.use_cases.length) "Additional use case".data }
    else s
  let s :=
    if s.ctas.length < 2 then
      { s with ctas := s.ctas ++ List.replicate (2 - s.ctas.length) "Take Action".data }
    else s
  if s.social_posts.length < 2 then
    { s with social_posts :=
        s.social_posts ++
          List.replicate (2 - s.social_posts.length) "Check out this amazing product!".data }
  else s

/-- Parsing of the labelled `TAGLINE:` / `NARRATIVE:` output in
`RobustMarketingGenerator._generate_once` (`marketing_generator.py` lines
92-105), including the fallback that takes the first non-empty line (capped
at 120 characters) and the joined remaining lines (capped at 1500). -/
def parse_content (content : List Char) : List Char × List Char :=
  let step : List Char × List Char → List Char → List Char × List Char :=
    fun tn rawline =>
      let line := pyStrip rawline
      if "TAGLINE:".data.isPrefixOf line then (pyStrip (line.drop 8), tn.2)
      else if "NARRATIVE:".data.isPrefixOf line then (tn.1, pyStrip (line.drop 10))
      else tn
  let tn := (pySplitlines content).foldl step ([], [])
  if tn.1 = [] ∨ tn.2 = [] then
    let lines := ((pySplitlines content).map pyStrip).filter (fun ln => !ln.isEmpty)
    match lines with
    | [] => tn
    | first :: rest =>
      ((if tn.1 = [] then first.take 120 else tn.1),
       (if tn.2 = [] then (pyJoin rest).take 1500 else tn.2))
  else tn

/-- Length enforcement of `RobustMarketingGenerator._generate_once`
(`marketing_generator.py` lines 107-118).  Note that both tagline `if`s test
the word count of the original tagline, and that the under-length branches
extend the word list with empty strings before joining. -/
def enforce_lengths (tagline0 narrative0 : List Char) : List Char × List Char :=
  let tagline_words := pySplit tagline0
  let tagline1 :=
    if 15 < tagline_words.length then pyJoin (tagline_words.take 15) else tagline0
  let tagline2 :=
    if tagline_words.length < 10 then
      pyStrip ((pyJoin (tagline_words ++
        List.replicate (10 - tagline_words.length) [])).take 120)
    else tagline1
  let narrative_words := pySplit narrative0
  let narrative1 :=
    if 150 < narrative_words.length then pyJoin (narrative_words.take 150)
    else if narrative_words.length < 100 then
      pyStrip (pyJoin (narrative_words ++
        List.replicate (100 - narrative_words.length) []))
    else narrative0
  (tagline2, narrative1)

/-- Result dictionary of `RobustMarketingGenerator._generate_once` /
`generate_storyline`. -/
inductive GenOutcome where
  | success (tagline narrative model : List Char)
  | failure (error : List Char) (status : Option Int)
deriving DecidableEq

/-- `RobustMarketingGenerator._generate_once` (lines 68-127), with the HTTP
layer passed in: `status_code` and `response_text` are the status and the
`response` field of the backend's reply. -/
def generate_once (status_code : Int) (response_text : List Char)
    (model_name : List Char) : GenOutcome :=
  if status_code ≠ 200 then
    .failure ("API error ".data ++ (toString status_code).data) (some status_code)
  else
    let tn := parse_content response_text
    let en := enforce_lengths tn.1 tn.2
    .success en.1 en.2 model_name

/-- The model loop of `RobustMarketingGenerator.generate_storyline` (lines
175-187), with `attempt` standing for `_generate_once` applied to the ambient
network environment.  In the source, `continue` is the final statement of the
loop body, so after the `status == 500` test both paths fall through to the
next candidate model; the `if` below mirrors that vacuous test. -/
def try_models (attempt : List Char → GenOutcome) : List (List Char) → GenOutcome
  | [] => .failure "All generation attempts failed with available models.".data none
  | m :: ms =>
    match attempt m with
    | .success t n mdl => .success t n mdl
    | .failure _ status =>
      if status = some 500 then try_models attempt ms else try_models attempt ms

/-- `RobustMarketingGenerator.generate_storyline` (lines 151-187):
service-health check, candidate-model resolution (the resolved `try_order` is
passed in), then the attempt loop. -/
def generate_storyline_ollama (service_ok : Bool) (try_order : List (List Char))
    (attempt : List Char → GenOutcome) : GenOutcome :=
  if !service_ok then
    .failure "Ollama service not running. Start it and retry.".data none
  else if try_order = [] then
    .failure "No local models available. Pull a model (e.g., 'ollama pull llama3.2:1b').".data none
  else
    try_models attempt try_order

/-- Error taxonomy of the FastAPI-variant pipeline: `ValueError` raised by
input validation, and `LLMError` raised by the client/parse layer (stray
exceptions are re-raised as `LLMError` by the orchestrators). -/
inductive PipelineError where
  | valueError (msg : List Char)
  | llmError (msg : List Char)
deriving DecidableEq

/-- Modelled from the spec: the fence-stripping step of
`LLMClient.extract_json_response` (`app/llm_client.py` lines 225-235).  The
condition literal of the first branch is truncated in the repository file
(the line reads `if content.startswith("` followed by three backticks and
ends there); the spec's "strip a triple-fence code block marker (with or
without a language tag)" together with the intact `content[7:-3]` slice pins
the missing 7-character literal down to the three backticks followed by
`json`.  The rest of the function is taken from the intact source: trim, test
the two fence prefixes, slice, trim again. -/
def extract_json_content (content : List Char) : List Char :=
  let c := pyStrip content
  if "```json".data.isPrefixOf c then pyStrip (pyDropEnd 3 (c.drop 7))
  else if "```".data.isPrefixOf c then pyStrip (pyDropEnd 3 (c.drop 3))
  else c

/-- Python `text.find(ch)`: index of the first occurrence, `-1` if absent. -/
def pyFind (c : Char) (t : List Char) : Int :=
  match t.findIdx? (fun x => x == c) with
  | some i => (i : Int)
  | none => -1

/-- Python `text.rfind(ch)`: index of the last occurrence, `-1` if absent. -/
def pyRFind (c : Char) (t : List Char) : Int :=
  match t.reverse.findIdx? (fun x => x == c) with
  | some i => (t.length : Int) - 1 - (i : Int)
  | none => -1

/-- The brace-extraction step of `SceneGenerator.generate_scenes`
(`description.py` lines 100-103): slice the text to the span from the first
`\x7b` to the last `\x7d` when both exist in that order, else leave the text
unchanged; the result is what `json.loads` is applied to. -/
def extract_scene_span (text : List Char) : List Char :=
  let start := pyFind '\x7b' text
  let stop := pyRFind '\x7d' text
  if start ≠ -1 ∧ stop ≠ -1 ∧ start < stop then
    (text.drop start.toNat).take (stop.toNat + 1 - start.toNat)
  else text

/-- An element of the `features_data` array parsed from the model output,
before defaulting and pydantic validation (every field may be absent). -/
structure RawFeatureData where
  id : Option (List Char)
  name : Option (List Char)
  type : Option (List Char)
  importance_rank : Option Int
  confidence : Option ℚ
  example_phrase : Option (List Char)
deriving DecidableEq

/-- Membership in the `FeatureType` enum of `app/schemas.py`. -/
def feature_type_valid (t : List Char) : Bool :=
  t = "benefit".data || t = "spec".data || t = "use-case".data || t = "audience".data

/-- One iteration of the conversion loop in `FeatureExtractor.extract_features`
(lines 110-121): `setdefault` of `id`, `importance_rank` and `confidence`,
then `MarketingFeature(**feature_data)`; pydantic validation failure (missing
required field, type outside the enum, rank < 1, confidence outside [0,1])
makes the item be skipped. -/
def to_marketing_feature (idx : Nat) (d : RawFeatureData) : Option MarketingFeature :=
  let fid := d.id.getD ("f".data ++ (toString (idx + 1)).data)
  let rank := d.importance_rank.getD ((idx : Int) + 1)
  let conf := d.confidence.getD (0.8 : ℚ)
  match d.name, d.type, d.example_phrase with
  | some nm, some ty, some ex =>
    if feature_type_valid ty = true ∧ 1 ≤ rank ∧ 0 ≤ conf ∧ conf ≤ 1 then
      some { id := fid, name := nm, type := ty, importance_rank := rank,
             confidence := conf, example_phrase := ex }
    else none
  | _, _, _ => none

/-- The conversion loop (`for idx, feature_data in enumerate(...)`),
skipping invalid items. -/
def convert_features (idx : Nat) : List RawFeatureData → List MarketingFeature
  | [] => []
  | d :: ds =>
    match to_marketing_feature idx d with
    | some f => f :: convert_features (idx + 1) ds
    | none => convert_features (idx + 1) ds

/-- The feature cache: an association list with insert-at-front semantics,
looked up by first match.  The TTL and maximum size of the source's
`TTLCache` are time/capacity concerns that the cache claims do not touch. -/
abbrev FeatureCache := List ((List Char) × List MarketingFeature)

abbrev StoryCache := List ((List Char) × StorylineResponse)

/-- `FeatureExtractor._generate_cache_key` hashes
`f"\x7bproduct_prompt\x7d:\x7bmax_features\x7d"` with md5; the hash is
modelled as the identity on the hashed content. -/
def feature_cache_key (product_prompt : List Char) (max_features : Int) : List Char :=
  product_prompt ++ ":".data ++ (toString max_features).data

/-- `StoryGenerator._generate_cache_key` (lines 49-60), with md5 modelled as
the identity on the hashed content; `audience or 'default'` maps both `None`
and the empty string to `"default"`. -/
def story_cache_key (product_prompt : List Char) (features : List MarketingFeature)
    (tone length : List Char) (audience : Option (List Char)) : List Char :=
  let features_str :=
    pyJoinSep "|".data (features.map (fun f => f.name ++ ":".data ++ f.type))
  product_prompt ++ ":".data ++ features_str ++ ":".data ++ tone ++ ":".data ++
    length ++ ":".data ++ fill_field audience "default".data

/-- `FeatureExtractor.extract_features` (`app/feature_extractor.py` lines
54-139).  `cache` is `none` when caching is disabled.  `chat_result` is the
outcome of `llm_client.chat_completion` and `parse_result` the outcome of
`extract_json_response` plus the JSON decoding of the features array — both
are external I/O passed as parameters; their failures are `LLMError`s, as in
the source.  Returns the call's outcome together with the cache afterwards. -/
def extract_features (cache : Option FeatureCache) (product_prompt : List Char)
    (max_features : Int) (chat_result : Except (List Char) (List Char))
    (parse_result : List Char → Except (List Char) (List RawFeatureData)) :
    Except PipelineError (List MarketingFeature) × Option FeatureCache :=
  if pyStrip product_prompt = [] then
    (.error (.valueError "Product prompt cannot be empty".data), cache)
  else if max_features < 1 ∨ 50 < max_features then
    (.error (.valueError "max_features must be between 1 and 50".data), cache)
  else
    let key := feature_cache_key product_prompt max_features
    match cache.bind (fun c => c.lookup key) with
    | some v => (.ok v, cache)
    | none =>
      match chat_result with
      | .error e => (.error (.llmError e), cache)
      | .ok response =>
        match parse_result response with
        | .error e => (.error (.llmError e), cache)
        | .ok features_data =>
          let features := rank_features (deduplicate_features
            (convert_features 0 (features_data.take max_features.toNat)))
          (.ok features, cache.map (fun c => (key, features) :: c))

/-- `StoryGenerator.generate_storyline` (`app/story_generator.py` lines
62-157), under the same conventions as `extract_features`: validation, cache
check, LLM call, parse, post-processing, cache write on success only. -/
def story_generate_storyline (cache : Option StoryCache) (product_prompt : List Char)
    (features : List MarketingFeature) (tone length : List Char)
    (audience : Option (List Char)) (chat_result : Except (List Char) (List Char))
    (parse_result : List Char → Except (List Char) RawStoryline) :
    Except PipelineError StorylineResponse × Option StoryCache :=
  if pyStrip product_prompt = [] then
    (.error (.valueError "Product prompt cannot be empty".data), cache)
  else if features = [] then
    (.error (.valueError "At least one feature must be provided".data), cache)
  else
    let key := story_cache_key product_prompt features tone length audience
    match cache.bind (fun c => c.lookup key) with
    | some v => (.ok v, cache)
    | none =>
      match chat_result with
      | .error e => (.error (.llmError e), cache)
      | .ok response =>
        match parse_result response with
        | .error e => (.error (.llmError e), cache)
        | .ok storyline_data =>
          let storyline := post_process_storyline storyline_data tone length
          (.ok storyline, cache.map (fun c => (key, storyline) :: c))

/-! Concrete inputs used by individual claims. -/

/-- The feature list of the spec's dedup regression case: names
`"Portable Design"`, `"Portable"`, `"4K Display"`. -/
def c2_features : List MarketingFeature :=
  [{ id := "f1".data, name := "Portable Design".data, type := "benefit".data,
     importance_rank := 1, confidence := 0.95,
     example_phrase := "Fits in your hand".data },
   { id := "f2".data, name := "Portable".data, type := "benefit".data,
     importance_rank := 2, confidence := 0.9,
     example_phrase := "Take it anywhere".data },
   { id := "f3".data, name := "4K Display".data, type := "spec".data,
     importance_rank := 3, confidence := 0.88,
     example_phrase := "Crystal-clear picture".data }]

/-- Ranking example: importance_rank 3, confidence 0.7. -/
def c3_a : MarketingFeature :=
  { id := "a".data, name := "Feature A".data, type := "benefit".data,
    importance_rank := 3, confidence := 0.7, example_phrase := "a".data }

/-- Ranking example: importance_rank 1, confidence 0.9. -/
def c3_b : MarketingFeature :=
  { id := "b".data, name := "Feature B".data, type := "spec".data,
    importance_rank := 1, confidence := 0.9, example_phrase := "b".data }

/-- Ranking example: importance_rank 2, confidence 0.8. -/
def c3_c : MarketingFeature :=
  { id := "c".data, name := "Feature C".data, type := "use-case".data,
    importance_rank := 2, confidence := 0.8, example_phrase := "c".data }

/-- A parsed storyline whose headline has 61 characters (everything else
missing). -/
def c4_raw : RawStoryline :=
  { headline := some (List.replicate 61 'a'), subhead := none,
    hero_paragraph := none, bulleted_features := none, persona := none,
    use_cases := none, ctas := none, email_subject := none, email_body := none,
    social_posts := none }

/-- A well-formed labelled model output whose tagline has 3 words and whose
narrative has 4 words. -/
def c5_content : List Char :=
  "TAGLINE: Just do it\nNARRATIVE: Buy this great product".data

/-- A backend environment in which the first candidate model fails with the
client-side status 400 and every other model succeeds. -/
def c6_attempt (m : List Char) : GenOutcome :=
  if m = "llama2".data then .failure "API error 400".data (some 400)
  else .success "tag".data "story".data m

/-- A feature cache holding one previously computed result. -/
def c7_feature_cache : FeatureCache := [("cached product:10".data, [])]

/-- A previously cached storyline result. -/
def c7_story : StorylineResponse :=
  { headline := "h".data, subhead := "s".data, hero_paragraph := "p".data,
    bulleted_features := ["b1".data, "b2".data, "b3".data], persona := "pe".data,
    use_cases := ["u1".data, "u2".data], ctas := ["c1".data, "c2".data],
    email_subject := "es".data, email_body := "eb".data,
    social_posts := ["s1".data, "s2".data] }

/-- A story cache holding one previously computed result. -/
def c7_story_cache : StoryCache := [("cached story key".data, c7_story)]

/-- A concrete JSON object text of the scenes shape. -/
def c9_json : List Char := "\x7b\"scenes\": [1]\x7d".data

/-- An already-deduplicated, already-ranked feature list (disjoint names,
ranks 1 and 2, in order). -/
def c10_features : List MarketingFeature :=
  [{ id := "f1".data, name := "Solar Charging".data, type := "benefit".data,
     importance_rank := 1, confidence := 0.9,
     example_phrase := "Charges in the sun".data },
   { id := "f2".data, name := "Water Resistance".data, type := "spec".data,
     importance_rank := 2, confidence := 0.8,
     example_phrase := "Survives a splash".data }]

/-- The spec's similarity measure: Jaccard similarity
`|intersection| / |union|` of the whitespace-split word sets of the two
names (with the `0/0 = 0` convention of ℚ division). -/
def jaccard_similarity (name1 name2 : List Char) : ℚ :=
  (((pySplit name1).toFinset ∩ (pySplit name2).toFinset).card : ℚ) /
    (((pySplit name1).toFinset ∪ (pySplit name2).toFinset).card : ℚ)

/-! ### Helper lemmas about the Python string primitives -/

theorem pySplitGo_words_good :
    ∀ (l acc : List Char), (∀ c ∈ acc, pyIsSpace c = false) →
      ∀ w ∈ pySplitGo l acc, w ≠ [] ∧ ∀ c ∈ w, pyIsSpace c = false := by
  intro l
  induction l with
  | nil =>
    intro acc hacc w hw
    by_cases ha : acc = []
    · simp [pySplitGo, ha] at hw
    · simp only [pySplitGo, if_neg ha, List.mem_singleton] at hw
      subst hw
      refine ⟨by simpa using ha, ?_⟩
      intro c hc
      exact hacc c (List.mem_reverse.mp hc)
  | cons c cs ih =>
    intro acc hacc w hw
    by_cases hsp : pyIsSpace c = true
    · by_cases ha : acc = []
      · simp only [pySplitGo, if_pos hsp, if_pos ha] at hw
        exact ih [] (by simp) w hw
      · simp only [pySplitGo, if_pos hsp, if_neg ha, List.mem_cons] at hw
        rcases hw with hw | hw
        · subst hw
          refine ⟨by simpa using ha, ?_⟩
          intro x hx
          exact hacc x (List.mem_reverse.mp hx)
        · exact ih [] (by simp) w hw
    · simp only [pySplitGo, if_neg hsp] at hw
      refine ih (c :: acc) ?_ w hw
      intro x hx
      rcases List.mem_cons.mp hx with h | h
      · subst h; exact Bool.eq_false_iff.mpr hsp
      · exact hacc x h

theorem pySplit_words_good (l : List Char) :
    ∀ w ∈ pySplit l, w ≠ [] ∧ ∀ c ∈ w, pyIsSpace c = false :=
  pySplitGo_words_good l [] (by simp)

theorem pySplitGo_word_chunk :
    ∀ (w rest acc : List Char), (∀ c ∈ w, pyIsSpace c = false) →
      pySplitGo (w ++ rest) acc = pySplitGo rest (w.reverse ++ acc) := by
  intro w
  induction w with
  | nil => intro rest acc _; simp
  | cons c w' ih =>
    intro rest acc hw
    have hc : pyIsSpace c = false := hw c (by simp)
    simp only [List.cons_append, pySplitGo, hc, Bool.false_eq_true, if_false,
      List.append_eq]
    rw [ih rest (c :: acc) (fun x hx => hw x (by simp [hx]))]
    simp [List.append_assoc]

theorem pySplitGo_all_space :
    ∀ (t acc : List Char), (∀ c ∈ t, pyIsSpace c = true) →
      pySplitGo t acc = if acc = [] then [] else [acc.reverse] := by
  intro t
  induction t with
  | nil => intro acc _; rfl
  | cons c t' ih =>
    intro acc h
    have hc : pyIsSpace c = true := h c (by simp)
    by_cases ha : acc = []
    · simp only [pySplitGo, if_pos hc, if_pos ha]
      rw [ih [] (fun x hx => h x (by simp [hx]))]
      simp [ha]
    · simp only [pySplitGo, if_pos hc, if_neg ha]
      rw [ih [] (fun x hx => h x (by simp [hx]))]
      simp [ha]

theorem pySplitGo_append_trailing_space (t : List Char)
    (ht : ∀ c ∈ t, pyIsSpace c = true) :
    ∀ (s acc : List Char), pySplitGo (s ++ t) acc = pySplitGo s acc := by
  intro s
  induction s with
  | nil =>
    intro acc
    rw [List.nil_append, pySplitGo_all_space t acc ht]
    rfl
  | cons c s' ih =>
    intro acc
    by_cases hsp : pyIsSpace c = true
    · by_cases ha : acc = []
      · simp only [List.cons_append, pySplitGo, if_pos hsp, if_pos ha,
          List.append_eq]
        exact ih []
      · simp only [List.cons_append, pySplitGo, if_pos hsp, if_neg ha,
          List.append_eq]
        rw [ih []]
    · simp only [List.cons_append, pySplitGo, if_neg hsp, List.append_eq]
      exact ih (c :: acc)

theorem pyJoin_cons_cons (w v : List Char) (ws : List (List Char)) :
    pyJoin (w :: v :: ws) = w ++ [' '] ++ pyJoin (v :: ws) := rfl

theorem pySplit_pyJoin_roundtrip :
    ∀ ws : List (List Char),
      (∀ w ∈ ws, w ≠ [] ∧ ∀ c ∈ w, pyIsSpace c = false) →
      pySplit (pyJoin ws) = ws := by
  intro ws
  induction ws with
  | nil => intro _; rfl
  | cons w ws' ih =>
    intro h
    obtain ⟨hw, hwc⟩ := h w (by simp)
    cases ws' with
    | nil =>
      show pySplitGo (pyJoin [w]) [] = [w]
      have : pyJoin [w] = w ++ [] := by simp [pyJoin, pyJoinSep]
      rw [this, pySplitGo_word_chunk w [] [] hwc]
      simp [pySplitGo, hw]
    | cons v vs =>
      rw [pyJoin_cons_cons, List.append_assoc]
      show pySplitGo (w ++ ([' '] ++ pyJoin (v :: vs))) [] = w :: v :: vs
      rw [pySplitGo_word_chunk w ([' '] ++ pyJoin (v :: vs)) [] hwc]
      have hsp : pyIsSpace ' ' = true := rfl
      have hrev : w.reverse ≠ [] := by simpa using hw
      show pySplitGo (' ' :: pyJoin (v :: vs)) (w.reverse ++ []) = w :: v :: vs
      simp only [List.append_nil, pySplitGo, if_pos hsp, if_neg hrev,
        List.reverse_reverse]
      show w :: pySplit (pyJoin (v :: vs)) = w :: v :: vs
      rw [ih (fun x hx => h x (by simp [hx]))]

theorem pySplitGo_ne_nil_of_acc_ne_nil :
    ∀ (l acc : List Char), acc ≠ [] → 1 ≤ (pySplitGo l acc).length := by
  intro l
  induction l with
  | nil => intro acc ha; simp [pySplitGo, ha]
  | cons c cs ih =>
    intro acc ha
    by_cases hsp : pyIsSpace c = true
    · simp only [pySplitGo, if_pos hsp, if_neg ha, List.length_cons]
      omega
    · simp only [pySplitGo, if_neg hsp]
      exact ih (c :: acc) (by simp)

theorem pySplitGo_take_length_le :
    ∀ (l : List Char) (k : Nat) (acc : List Char),
      (pySplitGo (l.take k) acc).length ≤ (pySplitGo l acc).length := by
  intro l
  induction l with
  | nil => intro k acc; simp
  | cons c cs ih =>
    intro k acc
    cases k with
    | zero =>
      by_cases ha : acc = []
      · simp [pySplitGo, ha]
      · calc (pySplitGo [] acc).length = 1 := by simp [pySplitGo, ha]
          _ ≤ (pySplitGo (c :: cs) acc).length := by
              by_cases hsp : pyIsSpace c = true
              · simp only [pySplitGo, if_pos hsp, if_neg ha, List.length_cons]
                omega
              · simp only [pySplitGo, if_neg hsp]
                exact pySplitGo_ne_nil_of_acc_ne_nil cs (c :: acc) (by simp)
    | succ k' =>
      by_cases hsp : pyIsSpace c = true
      · by_cases ha : acc = []
        · simp only [List.take_succ_cons, pySplitGo, if_pos hsp, if_pos ha]
          exact ih k' []
        · simp only [List.take_succ_cons, pySplitGo, if_pos hsp, if_neg ha,
            List.length_cons]
          exact Nat.succ_le_succ (ih k' [])
      · simp only [List.take_succ_cons, pySplitGo, if_neg hsp]
        exact ih k' (c :: acc)

theorem pySplit_take_length_le (l : List Char) (k : Nat) :
    (pySplit (l.take k)).length ≤ (pySplit l).length :=
  pySplitGo_take_length_le l k []

theorem dropWhile_append_all (p : Char → Bool) {t : List Char} (y : List Char)
    (ht : ∀ c ∈ t, p c = true) : (t ++ y).dropWhile p = y.dropWhile p := by
  induction t with
  | nil => rfl
  | cons c t' ih =>
    rw [List.cons_append, List.dropWhile_cons, if_pos (ht c (by simp))]
    exact ih (fun x hx => ht x (by simp [hx]))

theorem dropWhile_cons_of_false {p : Char → Bool} {c : Char} {l : List Char}
    (h : p c = false) : (c :: l).dropWhile p = c :: l := by
  rw [List.dropWhile_cons, h]
  simp

theorem pyRStrip_append_spaces (l t : List Char)
    (ht : ∀ c ∈ t, pyIsSpace c = true) : pyRStrip (l ++ t) = pyRStrip l := by
  unfold pyRStrip
  rw [List.reverse_append,
    dropWhile_append_all pyIsSpace l.reverse
      (fun c hc => ht c (List.mem_reverse.mp hc))]

theorem pyStrip_all_space (t : List Char) (ht : ∀ c ∈ t, pyIsSpace c = true) :
    pyStrip t = [] := by
  unfold pyStrip
  have : t.dropWhile pyIsSpace = [] := by
    have h := dropWhile_append_all pyIsSpace [] ht
    rwa [List.append_nil] at h
  rw [this]
  rfl

theorem pyStrip_eq_self {l : List Char}
    (hh : l = [] ∨ ∃ c t, l = c :: t ∧ pyIsSpace c = false)
    (hl : l = [] ∨ ∃ c t, l.reverse = c :: t ∧ pyIsSpace c = false) :
    pyStrip l = l := by
  rcases hh with rfl | ⟨c, t, rfl, hc⟩
  · rfl
  rcases hl with h | ⟨c', t', hct', hc'⟩
  · exact absurd h (by simp)
  unfold pyStrip pyRStrip
  rw [dropWhile_cons_of_false hc, hct', dropWhile_cons_of_false hc', ← hct',
    List.reverse_reverse]

theorem pyJoin_good_head (w : List Char) (ws : List (List Char))
    (hws : ∀ x ∈ w :: ws, x ≠ [] ∧ ∀ c ∈ x, pyIsSpace c = false) :
    ∃ c t, pyJoin (w :: ws) = c :: t ∧ pyIsSpace c = false := by
  obtain ⟨hw, hwc⟩ := hws w (by simp)
  cases w with
  | nil => exact absurd rfl hw
  | cons c w' =>
    cases ws with
    | nil => exact ⟨c, w', rfl, hwc c (by simp)⟩
    | cons v vs =>
      refine ⟨c, (w' ++ [' ']) ++ pyJoin (v :: vs), ?_, hwc c (by simp)⟩
      rw [pyJoin_cons_cons]
      simp

theorem pyJoin_good_reverse_head (w : List Char) (ws : List (List Char))
    (hws : ∀ x ∈ w :: ws, x ≠ [] ∧ ∀ c ∈ x, pyIsSpace c = false) :
    ∃ c t, (pyJoin (w :: ws)).reverse = c :: t ∧ pyIsSpace c = false := by
  induction ws generalizing w with
  | nil =>
    obtain ⟨hw, hwc⟩ := hws w (by simp)
    cases hwr : w.reverse with
    | nil => exact absurd (by simpa using hwr) hw
    | cons c t =>
      refine ⟨c, t, hwr, hwc c ?_⟩
      have : c ∈ w.reverse := by rw [hwr]; simp
      exact List.mem_reverse.mp this
  | cons v vs ih =>
    obtain ⟨c, t, hct, hc⟩ := ih v (fun x hx => hws x (by simp at hx ⊢; tauto))
    refine ⟨c, t ++ (w ++ [' ']).reverse, ?_, hc⟩
    rw [pyJoin_cons_cons, List.reverse_append, hct]
    rfl

theorem pySplitGo_dropWhile_eq (l : List Char) :
    pySplitGo (l.dropWhile pyIsSpace) [] = pySplitGo l [] := by
  induction l with
  | nil => rfl
  | cons c cs ih =>
    by_cases h : pyIsSpace c = true
    · rw [List.dropWhile_cons, if_pos h, ih]
      simp [pySplitGo, h]
    · rw [List.dropWhile_cons, if_neg (by simp [h])]

theorem pySplit_pyRStrip (l : List Char) : pySplit (pyRStrip l) = pySplit l := by
  have hdecomp : l = pyRStrip l ++ (l.reverse.takeWhile pyIsSpace).reverse := by
    conv_lhs =>
      rw [← List.reverse_reverse l,
        ← List.takeWhile_append_dropWhile (p := pyIsSpace) (l := l.reverse)]
    rw [List.reverse_append]
    rfl
  have htail : ∀ c ∈ (l.reverse.takeWhile pyIsSpace).reverse, pyIsSpace c = true :=
    fun c hc => List.mem_takeWhile_imp (List.mem_reverse.mp hc)
  conv_rhs => rw [hdecomp]
  exact (pySplitGo_append_trailing_space _ htail (pyRStrip l) []).symm

theorem pySplit_pyStrip (l : List Char) : pySplit (pyStrip l) = pySplit l := by
  unfold pyStrip
  rw [pySplit_pyRStrip]
  exact pySplitGo_dropWhile_eq l

theorem pyJoin_replicate_empty :
    ∀ k : Nat, pyJoin (List.replicate k []) = List.replicate (k - 1) ' ' := by
  intro k
  induction k with
  | zero => rfl
  | succ k' ih =>
    cases k' with
    | zero => rfl
    | succ k'' =>
      have h1 : List.replicate (k'' + 1 + 1) ([] : List Char) =
          [] :: [] :: List.replicate k'' [] := by
        simp [List.replicate_succ]
      have h2 : ([] : List Char) :: List.replicate k'' [] =
          List.replicate (k'' + 1) [] := by
        simp [List.replicate_succ]
      rw [h1, pyJoin_cons_cons, h2, ih]
      simp [List.replicate_succ]

theorem pyJoin_append_empties (w : List Char) (ws : List (List Char)) (k : Nat) :
    pyJoin ((w :: ws) ++ List.replicate k []) =
      pyJoin (w :: ws) ++ List.replicate k ' ' := by
  induction ws generalizing w with
  | nil =>
    cases k with
    | zero => simp
    | succ k' =>
      have h1 : ([w] ++ List.replicate (k' + 1) []) =
          w :: [] :: List.replicate k' [] := by
        simp [List.replicate_succ]
      have h2 : ([] : List Char) :: List.replicate k' [] =
          List.replicate (k' + 1) [] := by
        simp [List.replicate_succ]
      rw [h1, pyJoin_cons_cons, h2, pyJoin_replicate_empty]
      simp [List.replicate_succ]
      rfl
  | cons v vs ih =>
    have h1 : (w :: v :: vs) ++ List.replicate k [] =
        w :: v :: (vs ++ List.replicate k []) := rfl
    have h2 : v :: (vs ++ List.replicate k []) =
        (v :: vs) ++ List.replicate k [] := rfl
    rw [h1, pyJoin_cons_cons, h2, ih v, pyJoin_cons_cons]
    simp [List.append_assoc]

theorem replicate_space_all (m : Nat) :
    ∀ c ∈ List.replicate m ' ', pyIsSpace c = true := by
  intro c hc
  rw [List.eq_of_mem_replicate hc]
  rfl

theorem pyStrip_join_pad (ws : List (List Char))
    (hws : ∀ w ∈ ws, w ≠ [] ∧ ∀ c ∈ w, pyIsSpace c = false) (m : Nat) :
    pyStrip (pyJoin ws ++ List.replicate m ' ') = pyJoin ws := by
  cases ws with
  | nil =>
    rw [show pyJoin ([] : List (List Char)) = [] from rfl, List.nil_append]
    exact pyStrip_all_space _ (replicate_space_all m)
  | cons w ws' =>
    obtain ⟨c, t, hct, hc⟩ := pyJoin_good_head w ws' hws
    obtain ⟨c', t', hct', hc'⟩ := pyJoin_good_reverse_head w ws' hws
    unfold pyStrip
    rw [hct, List.cons_append, dropWhile_cons_of_false hc, ← List.cons_append,
      ← hct, pyRStrip_append_spaces _ _ (replicate_space_all m)]
    unfold pyRStrip
    rw [hct', dropWhile_cons_of_false hc', ← hct', List.reverse_reverse]

theorem pad_cap_small (ws : List (List Char))
    (hws : ∀ w ∈ ws, w ≠ [] ∧ ∀ c ∈ w, pyIsSpace c = false) (k : Nat)
    (hlen : (pyJoin ws).length ≤ 120) :
    pyStrip ((pyJoin (ws ++ List.replicate k [])).take 120) = pyJoin ws := by
  cases ws with
  | nil =>
    rw [List.nil_append, pyJoin_replicate_empty, List.take_replicate]
    exact pyStrip_all_space _ (replicate_space_all _)
  | cons w ws' =>
    rw [pyJoin_append_empties, List.take_append_eq_append_take,
      List.take_of_length_le hlen, List.take_replicate]
    exact pyStrip_join_pad (w :: ws') hws _

theorem pad_cap_big (ws : List (List Char))
    (hws : ∀ w ∈ ws, w ≠ [] ∧ ∀ c ∈ w, pyIsSpace c = false) (k : Nat)
    (hlen : 120 < (pyJoin ws).length) :
    (pySplit (pyStrip ((pyJoin (ws ++ List.replicate k [])).take 120))).length ≤
      ws.length := by
  cases ws with
  | nil => simp [pyJoin, pyJoinSep] at hlen
  | cons w ws' =>
    rw [pyJoin_append_empties, List.take_append_eq_append_take,
      show 120 - (pyJoin (w :: ws')).length = 0 by omega, List.take_zero,
      List.append_nil, pySplit_pyStrip]
    calc (pySplit ((pyJoin (w :: ws')).take 120)).length
        ≤ (pySplit (pyJoin (w :: ws'))).length := pySplit_take_length_le _ _
      _ = (w :: ws').length := by rw [pySplit_pyJoin_roundtrip _ hws]

theorem pad_nocap (ws : List (List Char))
    (hws : ∀ w ∈ ws, w ≠ [] ∧ ∀ c ∈ w, pyIsSpace c = false) (k : Nat) :
    pyStrip (pyJoin (ws ++ List.replicate k [])) = pyJoin ws := by
  cases ws with
  | nil =>
    rw [List.nil_append, pyJoin_replicate_empty]
    exact pyStrip_all_space _ (replicate_space_all _)
  | cons w ws' =>
    rw [pyJoin_append_empties]
    exact pyStrip_join_pad (w :: ws') hws _

/-! ### Helper lemmas for the JSON fence/brace extraction -/

theorem strip_lf_pad {J : List Char} (hh : ∃ t, J = '\x7b' :: t)
    (hl : ∃ t, J.reverse = '\x7d' :: t) :
    pyStrip ('\n' :: (J ++ ['\n'])) = J := by
  obtain ⟨t, rfl⟩ := hh
  obtain ⟨t', ht'⟩ := hl
  unfold pyStrip
  rw [show (('\n' :: (('\x7b' :: t) ++ ['\n'])).dropWhile pyIsSpace) =
      ((('\x7b' :: t) ++ ['\n']).dropWhile pyIsSpace) from rfl,
    List.cons_append, dropWhile_cons_of_false (show pyIsSpace '\x7b' = false from rfl),
    ← List.cons_append,
    pyRStrip_append_spaces _ ['\n'] (by intro c hc; simp at hc; rw [hc]; rfl)]
  unfold pyRStrip
  rw [ht', dropWhile_cons_of_false (show pyIsSpace '\x7d' = false from rfl), ← ht',
    List.reverse_reverse]

theorem dropEnd3_fence (x : List Char) :
    pyDropEnd 3 (x ++ "\n```".data) = x ++ ['\n'] := by
  unfold pyDropEnd
  rw [List.reverse_append]
  show (('\n' :: x.reverse) : List Char).reverse = x ++ ['\n']
  rw [List.reverse_cons, List.reverse_reverse]

theorem pyStrip_fence_self (mid : List Char) :
    pyStrip (('\x60' :: mid) ++ "\n```".data) = ('\x60' :: mid) ++ "\n```".data := by
  apply pyStrip_eq_self
  · right
    exact ⟨'\x60', mid ++ "\n```".data, rfl, rfl⟩
  · right
    refine ⟨'\x60', ['\x60', '\x60', '\n'] ++ ('\x60' :: mid).reverse, ?_, rfl⟩
    rw [List.reverse_append]
    rfl

theorem extract_json_content_json_fence (J : List Char)
    (hh : ∃ t, J = '\x7b' :: t) (hl : ∃ t, J.reverse = '\x7d' :: t) :
    extract_json_content ("```json\n".data ++ J ++ "\n```".data) = J := by
  show extract_json_content (('\x60' :: ("``json\n".data ++ J)) ++ "\n```".data) = J
  simp only [extract_json_content]
  rw [pyStrip_fence_self]
  have hpre : ("```json".data.isPrefixOf
      (('\x60' :: ("``json\n".data ++ J)) ++ "\n```".data)) = true := rfl
  rw [hpre, if_pos rfl]
  have hdrop : ((('\x60' :: ("``json\n".data ++ J)) ++ "\n```".data).drop 7) =
      ('\n' :: J) ++ "\n```".data := rfl
  rw [hdrop, dropEnd3_fence ('\n' :: J)]
  exact strip_lf_pad hh hl

theorem extract_json_content_plain_fence (J : List Char)
    (hh : ∃ t, J = '\x7b' :: t) (hl : ∃ t, J.reverse = '\x7d' :: t) :
    extract_json_content ("```\n".data ++ J ++ "\n```".data) = J := by
  show extract_json_content (('\x60' :: ("``\n".data ++ J)) ++ "\n```".data) = J
  simp only [extract_json_content]
  rw [pyStrip_fence_self]
  have hpre1 : ("```json".data.isPrefixOf
      (('\x60' :: ("``\n".data ++ J)) ++ "\n```".data)) = false := rfl
  have hpre2 : ("```".data.isPrefixOf
      (('\x60' :: ("``\n".data ++ J)) ++ "\n```".data)) = true := rfl
  rw [hpre1, if_neg Bool.false_ne_true, hpre2, if_pos rfl]
  have hdrop : ((('\x60' :: ("``\n".data ++ J)) ++ "\n```".data).drop 3) =
      ('\n' :: J) ++ "\n```".data := rfl
  rw [hdrop, dropEnd3_fence ('\n' :: J)]
  exact strip_lf_pad hh hl

theorem extract_json_content_bare (J : List Char)
    (hh : ∃ t, J = '\x7b' :: t) (hl : ∃ t, J.reverse = '\x7d' :: t) :
    extract_json_content J = J := by
  obtain ⟨t, hJ⟩ := hh
  obtain ⟨t', hJr⟩ := hl
  simp only [extract_json_content]
  rw [pyStrip_eq_self (Or.inr ⟨'\x7b', t, hJ, rfl⟩) (Or.inr ⟨'\x7d', t', hJr, rfl⟩)]
  have h1 : ("```json".data.isPrefixOf J) = false := by rw [hJ]; rfl
  have h2 : ("```".data.isPrefixOf J) = false := by rw [hJ]; rfl
  rw [h1, if_neg Bool.false_ne_true, h2, if_neg Bool.false_ne_true]

theorem pyFind_wrap (pre rest : List Char) (c : Char) (hpre : c ∉ pre)
    (t : List Char) (hrest : rest = c :: t) :
    pyFind c (pre ++ rest) = (pre.length : Int) := by
  unfold pyFind
  rw [List.findIdx?_append]
  have h1 : pre.findIdx? (fun x => x == c) = none :=
    List.findIdx?_eq_none_iff.mpr
      (fun x hx => beq_eq_false_iff_ne.mpr (fun hxc => hpre (hxc ▸ hx)))
  have h2 : rest.findIdx? (fun x => x == c) = some 0 := by
    rw [hrest]
    show List.findIdx? (fun x => x == c) (c :: t) = some 0
    simp [List.findIdx?_cons]
  rw [h1, h2]
  simp

theorem extract_scene_span_wrap (pre J post : List Char)
    (hpre : '\x7b' ∉ pre) (hpost : '\x7d' ∉ post)
    (hh : ∃ t, J = '\x7b' :: t) (hl : ∃ t, J.reverse = '\x7d' :: t) :
    extract_scene_span (pre ++ (J ++ post)) = J := by
  obtain ⟨t, hJ⟩ := hh
  obtain ⟨t', hJr⟩ := hl
  have hJlen2 : 2 ≤ J.length := by
    subst hJ
    cases t with
    | nil =>
      rw [List.reverse_singleton] at hJr
      injection hJr with ha hb
      exact absurd ha (by decide)
    | cons a t2 => simp
  have hfind : pyFind '\x7b' (pre ++ (J ++ post)) = (pre.length : Int) :=
    pyFind_wrap pre (J ++ post) '\x7b' hpre (t ++ post) (by rw [hJ]; rfl)
  have hrfind : pyRFind '\x7d' (pre ++ (J ++ post)) =
      (pre.length : Int) + J.length - 1 := by
    unfold pyRFind
    rw [List.reverse_append, List.reverse_append, List.append_assoc,
      List.findIdx?_append]
    have h1 : post.reverse.findIdx? (fun x => x == '\x7d') = none :=
      List.findIdx?_eq_none_iff.mpr
        (fun x hx => beq_eq_false_iff_ne.mpr
          (fun hxc => hpost (hxc ▸ List.mem_reverse.mp hx)))
    have h2 : (J.reverse ++ pre.reverse).findIdx? (fun x => x == '\x7d') = some 0 := by
      rw [hJr]
      show List.findIdx? (fun x => x == '\x7d') ('\x7d' :: (t' ++ pre.reverse)) = some 0
      simp [List.findIdx?_cons]
    rw [h1, h2]
    simp only [Option.none_or, Option.map_some', List.length_append,
      List.length_reverse]
    push_cast
    omega
  have hJlen2' : (2 : Int) ≤ (J.length : Int) := by exact_mod_cast hJlen2
  unfold extract_scene_span
  rw [hfind, hrfind, if_pos ⟨by omega, by omega, by omega⟩]
  have h3 : ((pre.length : Int)).toNat = pre.length := by omega
  have h4 : ((pre.length : Int) + J.length - 1).toNat = pre.length + J.length - 1 := by
    omega
  rw [h3, h4, List.drop_left]
  have h5 : pre.length + J.length - 1 + 1 - pre.length = J.length := by omega
  rw [h5]
  exact List.take_left J post

theorem extract_scene_span_self (J : List Char)
    (hh : ∃ t, J = '\x7b' :: t) (hl : ∃ t, J.reverse = '\x7d' :: t) :
    extract_scene_span J = J := by
  obtain ⟨t, hJ⟩ := hh
  obtain ⟨t', hJr⟩ := hl
  have hJlen2 : 2 ≤ J.length := by
    subst hJ
    cases t with
    | nil =>
      rw [List.reverse_singleton] at hJr
      injection hJr with ha hb
      exact absurd ha (by decide)
    | cons a t2 => simp
  have hfind : pyFind '\x7b' J = (0 : Int) := by
    unfold pyFind
    have hfi : J.findIdx? (fun x => x == '\x7b') = some 0 := by
      rw [hJ]
      simp [List.findIdx?_cons]
    rw [hfi]
    simp
  have hrfind : pyRFind '\x7d' J = (J.length : Int) - 1 := by
    unfold pyRFind
    have hfi : J.reverse.findIdx? (fun x => x == '\x7d') = some 0 := by
      rw [hJr]
      simp [List.findIdx?_cons]
    rw [hfi]
    simp
  have hJlen2' : (2 : Int) ≤ (J.length : Int) := by exact_mod_cast hJlen2
  unfold extract_scene_span
  rw [hfind, hrfind, if_pos ⟨by omega, by omega, by omega⟩]
  have h3 : ((0 : Int)).toNat = 0 := rfl
  have h4 : ((J.length : Int) - 1).toNat = J.length - 1 := by omega
  rw [h3, h4, List.drop_zero]
  have h5 : J.length - 1 + 1 - 0 = J.length := by omega
  rw [h5, List.take_length]

/-! ### Helper lemmas about ranking and deduplication -/

theorem renumber_from_map_rank :
    ∀ (n : Int) (l : List MarketingFeature),
      (renumber_from n l).map (fun f => f.importance_rank) =
        (List.range l.length).map (fun i : Nat => n + (i : Int)) := by
  intro n l
  induction l generalizing n with
  | nil => simp [renumber_from]
  | cons f fs ih =>
    simp only [renumber_from, List.map_cons, List.length_cons,
      List.range_succ_eq_map, List.map_map]
    rw [List.cons.injEq]
    refine ⟨by omega, ?_⟩
    rw [ih (n + 1)]
    apply List.map_congr_left
    intro i _
    simp only [Function.comp]
    push_cast
    ring

theorem renumber_from_eq_self :
    ∀ (n : Int) (l : List MarketingFeature),
      l.map (fun f => f.importance_rank) =
        (List.range l.length).map (fun i : Nat => n + (i : Int)) →
      renumber_from n l = l := by
  intro n l
  induction l generalizing n with
  | nil => intro _; rfl
  | cons f fs ih =>
    intro h
    simp only [List.map_cons, List.length_cons, List.range_succ_eq_map,
      List.map_map, List.cons.injEq] at h
    obtain ⟨h1, h2⟩ := h
    simp only [renumber_from]
    congr 1
    · have hr : n = f.importance_rank := by omega
      rw [hr]
    · apply ih (n + 1)
      rw [h2]
      apply List.map_congr_left
      intro i _
      simp [Function.comp]
      ring

theorem sorted_of_rank_range :
    ∀ (n : Int) (l : List MarketingFeature),
      l.map (fun f => f.importance_rank) =
        (List.range l.length).map (fun i : Nat => n + (i : Int)) →
      List.Sorted featureKeyLe l := by
  intro n l
  induction l generalizing n with
  | nil => intro _; exact List.sorted_nil
  | cons f fs ih =>
    intro h
    simp only [List.map_cons, List.length_cons, List.range_succ_eq_map,
      List.map_map, List.cons.injEq] at h
    obtain ⟨h1, h2⟩ := h
    have h2' : fs.map (fun f => f.importance_rank) =
        (List.range fs.length).map (fun i : Nat => (n + 1) + (i : Int)) := by
      rw [h2]
      apply List.map_congr_left
      intro i _
      simp [Function.comp]
      ring
    rw [List.sorted_cons]
    refine ⟨?_, ih (n + 1) h2'⟩
    intro g hg
    have hmem : g.importance_rank ∈ fs.map (fun f => f.importance_rank) :=
      List.mem_map_of_mem _ hg
    rw [h2'] at hmem
    obtain ⟨i, _, hi⟩ := List.mem_map.mp hmem
    left
    omega

theorem names_similar_iff_jaccard (n1 n2 : List Char) :
    names_similar n1 n2 (0.8 : ℚ) = true ↔
      (0.8 : ℚ) ≤ jaccard_similarity n1 n2 := by
  unfold names_similar jaccard_similarity
  by_cases h : (pySplit n1).toFinset = ∅ ∨ (pySplit n2).toFinset = ∅
  · rw [if_pos h]
    constructor
    · intro hf; exact absurd hf (by simp)
    · intro hle
      exfalso
      have hint : ((pySplit n1).toFinset ∩ (pySplit n2).toFinset).card = 0 := by
        rcases h with h | h <;> simp [h]
      rw [hint, Nat.cast_zero, zero_div] at hle
      exact absurd hle (by norm_num)
  · rw [if_neg h]
    push_neg at h
    obtain ⟨h1, h2⟩ := h
    have hu : 0 < ((pySplit n1).toFinset ∪ (pySplit n2).toFinset).card := by
      refine Finset.card_pos.mpr ?_
      refine Finset.nonempty_iff_ne_empty.mpr (fun he => h1 ?_)
      exact (Finset.union_eq_empty.mp he).1
    rw [if_pos hu]
    exact decide_eq_true_iff

theorem deduplicate_go_sublist :
    ∀ (l : List MarketingFeature) (seen : List (List Char)),
      List.Sublist (deduplicate_go l seen) l := by
  intro l
  induction l with
  | nil => intro seen; exact List.Sublist.refl []
  | cons f fs ih =>
    intro seen
    simp only [deduplicate_go]
    split
    · exact List.Sublist.cons f (ih seen)
    · exact List.Sublist.cons₂ f (ih _)

theorem jaccard_pd_portable :
    jaccard_similarity "portable design".data "portable".data = 1 / 2 := by
  unfold jaccard_similarity
  have hI : ((pySplit "portable design".data).toFinset ∩
      (pySplit "portable".data).toFinset).card = 1 := by decide
  have hU : ((pySplit "portable design".data).toFinset ∪
      (pySplit "portable".data).toFinset).card = 2 := by decide
  rw [hI, hU]
  norm_num

theorem ns_portable_pd :
    names_similar "portable".data "portable design".data (0.8 : ℚ) = false := by
  have h : ¬ (names_similar "portable".data "portable design".data (0.8 : ℚ) = true) := by
    rw [names_similar_iff_jaccard]
    unfold jaccard_similarity
    have hI : ((pySplit "portable".data).toFinset ∩
        (pySplit "portable design".data).toFinset).card = 1 := by decide
    have hU : ((pySplit "portable".data).toFinset ∪
        (pySplit "portable design".data).toFinset).card = 2 := by decide
    rw [hI, hU]
    norm_num
  exact Bool.eq_false_iff.mpr h

theorem ns_display_portable :
    names_similar "4k display".data "portable".data (0.8 : ℚ) = false := by
  have h : ¬ (names_similar "4k display".data "portable".data (0.8 : ℚ) = true) := by
    rw [names_similar_iff_jaccard]
    unfold jaccard_similarity
    have hI : ((pySplit "4k display".data).toFinset ∩
        (pySplit "portable".data).toFinset).card = 0 := by decide
    rw [hI, Nat.cast_zero, zero_div]
    norm_num
  exact Bool.eq_false_iff.mpr h

theorem ns_display_pd :
    names_similar "4k display".data "portable design".data (0.8 : ℚ) = false := by
  have h : ¬ (names_similar "4k display".data "portable design".data (0.8 : ℚ) = true) := by
    rw [names_similar_iff_jaccard]
    unfold jaccard_similarity
    have hI : ((pySplit "4k display".data).toFinset ∩
        (pySplit "portable design".data).toFinset).card = 0 := by decide
    rw [hI, Nat.cast_zero, zero_div]
    norm_num
  exact Bool.eq_false_iff.mpr h

theorem lower_pd :
    pyStrip (List.map Char.toLower "Portable Design".data) = "portable design".data := by
  decide

theorem lower_p :
    pyStrip (List.map Char.toLower "Portable".data) = "portable".data := by
  decide

theorem lower_4k :
    pyStrip (List.map Char.toLower "4K Display".data) = "4k display".data := by
  decide

theorem dedupe_c2_eval : deduplicate_features c2_features = c2_features := by
  have e1 := lower_pd
  have e2 := lower_p
  have e3 := lower_4k
  have n1 := ns_portable_pd
  have n2 := ns_display_portable
  have n3 := ns_display_pd
  simp only [] at e1 e2 e3 n1 n2 n3
  unfold deduplicate_features c2_features
  simp only [deduplicate_go, List.any_nil, List.any_cons, e1, e2, e3, n1, n2, n3,
    Bool.or_self, Bool.or_false, Bool.false_eq_true, if_false]

/-! ### Helper lemmas about the storyline normalizer -/

theorem fill_field_ne_nil {β : Type} (v : Option (List β)) (d : List β)
    (hd : d ≠ []) : fill_field v d ≠ [] := by
  unfold fill_field
  cases v with
  | none => exact hd
  | some x => cases x with
    | nil => exact hd
    | cons a xs => simp

theorem apply_length_constraints_other (s : StorylineResponse) (len : List Char) :
    (apply_length_constraints s len).subhead = s.subhead ∧
    (apply_length_constraints s len).bulleted_features = s.bulleted_features ∧
    (apply_length_constraints s len).persona = s.persona ∧
    (apply_length_constraints s len).use_cases = s.use_cases ∧
    (apply_length_constraints s len).ctas = s.ctas ∧
    (apply_length_constraints s len).email_subject = s.email_subject ∧
    (apply_length_constraints s len).email_body = s.email_body ∧
    (apply_length_constraints s len).social_posts = s.social_posts := by
  simp only [apply_length_constraints]
  split_ifs <;> simp

theorem apply_length_constraints_headline_ne_nil (s : StorylineResponse)
    (len : List Char) (h : s.headline ≠ []) :
    (apply_length_constraints s len).headline ≠ [] := by
  have hdots : ("...".data : List Char) ≠ [] := by decide
  simp only [apply_length_constraints]
  split_ifs <;> simp_all

theorem apply_length_constraints_hero_ne_nil (s : StorylineResponse)
    (len : List Char) (h : s.hero_paragraph ≠ []) :
    (apply_length_constraints s len).hero_paragraph ≠ [] := by
  have hdots : ("...".data : List Char) ≠ [] := by decide
  simp only [apply_length_constraints]
  split_ifs <;> simp_all

theorem apply_length_constraints_short_headline_le (s : StorylineResponse) :
    (apply_length_constraints s "short".data).headline.length ≤ 63 := by
  simp only [apply_length_constraints]
  split_ifs <;> simp_all [List.length_append, List.length_take] <;> omega

theorem apply_length_constraints_not_short (s : StorylineResponse)
    (len : List Char) (h : ¬ len = "short".data) :
    apply_length_constraints s len = s := by
  simp only [apply_length_constraints]
  rw [if_neg h]

theorem post_process_headline (d : RawStoryline) (tone length : List Char) :
    (post_process_storyline d tone length).headline =
      (apply_length_constraints (storyline_defaults_applied d) length).headline := by
  simp only [post_process_storyline]
  split_ifs <;> rfl

theorem post_process_scalar_fields (d : RawStoryline) (tone length : List Char) :
    (post_process_storyline d tone length).subhead =
      fill_field d.subhead default_subhead ∧
    (post_process_storyline d tone length).persona =
      fill_field d.persona default_persona ∧
    (post_process_storyline d tone length).email_subject =
      fill_field d.email_subject default_email_subject ∧
    (post_process_storyline d tone length).email_body =
      fill_field d.email_body default_email_body ∧
    (post_process_storyline d tone length).hero_paragraph =
      (apply_length_constraints (storyline_defaults_applied d) length).hero_paragraph := by
  obtain ⟨hsub, _, hper, _, _, hes, heb, _⟩ :=
    apply_length_constraints_other (storyline_defaults_applied d) length
  simp only [post_process_storyline]
  split_ifs <;>
    exact ⟨hsub, hper, hes, heb, rfl⟩

theorem post_process_min_lengths (d : RawStoryline) (tone length : List Char) :
    3 ≤ (post_process_storyline d tone length).bulleted_features.length ∧
    2 ≤ (post_process_storyline d tone length).use_cases.length ∧
    2 ≤ (post_process_storyline d tone length).ctas.length ∧
    2 ≤ (post_process_storyline d tone length).social_posts.length := by
  simp only [post_process_storyline]
  split_ifs <;>
    simp_all [List.length_append, List.length_replicate] <;> omega

/-! ### Helper lemmas about the tagline/narrative length enforcement -/

theorem enforce_tagline_under10_cap (t n : List Char)
    (h : (pySplit t).length < 10)
    (hcap : (pyJoin (pySplit t)).length ≤ 120) :
    (enforce_lengths t n).1 = pyJoin (pySplit t) := by
  simp only [enforce_lengths]
  rw [if_pos h]
  exact pad_cap_small (pySplit t) (pySplit_words_good t) _ hcap

theorem enforce_tagline_under10_wc (t n : List Char)
    (h : (pySplit t).length < 10) :
    (pySplit (enforce_lengths t n).1).length ≤ (pySplit t).length := by
  by_cases hcap : (pyJoin (pySplit t)).length ≤ 120
  · rw [enforce_tagline_under10_cap t n h hcap,
      pySplit_pyJoin_roundtrip _ (pySplit_words_good t)]
  · simp only [enforce_lengths]
    rw [if_pos h]
    exact pad_cap_big (pySplit t) (pySplit_words_good t) _ (by omega)

theorem enforce_tagline_le15 (t n : List Char) :
    (pySplit (enforce_lengths t n).1).length ≤ 15 := by
  by_cases h10 : (pySplit t).length < 10
  · have := enforce_tagline_under10_wc t n h10
    omega
  by_cases h15 : 15 < (pySplit t).length
  · simp only [enforce_lengths]
    rw [if_neg h10, if_pos h15]
    have hgood : ∀ w ∈ (pySplit t).take 15, w ≠ [] ∧ ∀ c ∈ w, pyIsSpace c = false :=
      fun w hw => pySplit_words_good t w (List.mem_of_mem_take hw)
    rw [pySplit_pyJoin_roundtrip _ hgood, List.length_take]
    omega
  · simp only [enforce_lengths]
    rw [if_neg h10, if_neg h15]
    omega

theorem enforce_narrative_under100 (t n : List Char)
    (h : (pySplit n).length < 100) :
    (enforce_lengths t n).2 = pyJoin (pySplit n) := by
  simp only [enforce_lengths]
  rw [if_neg (by omega), if_pos h]
  exact pad_nocap (pySplit n) (pySplit_words_good n) _

theorem enforce_narrative_le150 (t n : List Char) :
    (pySplit (enforce_lengths t n).2).length ≤ 150 := by
  by_cases h100 : (pySplit n).length < 100
  · rw [enforce_narrative_under100 t n h100,
      pySplit_pyJoin_roundtrip _ (pySplit_words_good n)]
    omega
  by_cases h150 : 150 < (pySplit n).length
  · simp only [enforce_lengths]
    rw [if_pos h150]
    have hgood : ∀ w ∈ (pySplit n).take 150, w ≠ [] ∧ ∀ c ∈ w, pyIsSpace c = false :=
      fun w hw => pySplit_words_good n w (List.mem_of_mem_take hw)
    rw [pySplit_pyJoin_roundtrip _ hgood, List.length_take]
    omega
  · simp only [enforce_lengths]
    rw [if_neg h150, if_neg h100]
    omega

theorem ns_water_solar :
    names_similar "water resistance".data "solar charging".data (0.8 : ℚ) = false := by
  have h : ¬ (names_similar "water resistance".data "solar charging".data (0.8 : ℚ)
      = true) := by
    rw [names_similar_iff_jaccard]
    unfold jaccard_similarity
    have hI : ((pySplit "water resistance".data).toFinset ∩
        (pySplit "solar charging".data).toFinset).card = 0 := by decide
    rw [hI, Nat.cast_zero, zero_div]
    norm_num
  exact Bool.eq_false_iff.mpr h

theorem lower_solar :
    pyStrip (List.map Char.toLower "Solar Charging".data) = "solar charging".data := by
  decide

theorem lower_water :
    pyStrip (List.map Char.toLower "Water Resistance".data) =
      "water resistance".data := by
  decide

theorem dedupe_c10_eval : deduplicate_features c10_features = c10_features := by
  have e1 := lower_solar
  have e2 := lower_water
  have n1 := ns_water_solar
  simp only [] at e1 e2 n1
  unfold deduplicate_features c10_features
  simp only [deduplicate_go, List.any_nil, List.any_cons, e1, e2, n1,
    Bool.or_self, Bool.or_false, Bool.false_eq_true, if_false]

/-! ## Claim theorems -/

/-- C1: for every parsed storyline record — the empty object included — and any
tone and length tier, the record returned by the normalizer
`StoryGenerator._post_process_storyline` has every required field non-empty:
`headline`, `subhead`, `hero_paragraph`, `persona`, `email_subject` and
`email_body` are non-empty strings, `bulleted_features` has at least 3 entries,
and `use_cases`, `ctas` and `social_posts` each have at least 2. -/
theorem claim_C1_post_process_fields_nonempty (d : RawStoryline)
    (tone length : List Char) :
    (post_process_storyline d tone length).headline ≠ [] ∧
    (post_process_storyline d tone length).subhead ≠ [] ∧
    (post_process_storyline d tone length).hero_paragraph ≠ [] ∧
    (post_process_storyline d tone length).persona ≠ [] ∧
    (post_process_storyline d tone length).email_subject ≠ [] ∧
    (post_process_storyline d tone length).email_body ≠ [] ∧
    3 ≤ (post_process_storyline d tone length).bulleted_features.length ∧
    2 ≤ (post_process_storyline d tone length).use_cases.length ∧
    2 ≤ (post_process_storyline d tone length).ctas.length ∧
    2 ≤ (post_process_storyline d tone length).social_posts.length := by
  obtain ⟨hsub, hper, hes, heb, hhero⟩ := post_process_scalar_fields d tone length
  obtain ⟨hb, hu, hc, hs⟩ := post_process_min_lengths d tone length
  refine ⟨?_, ?_, ?_, ?_, ?_, ?_, hb, hu, hc, hs⟩
  · rw [post_process_headline]
    apply apply_length_constraints_headline_ne_nil
    exact fill_field_ne_nil _ _ (by decide)
  · rw [hsub]
    exact fill_field_ne_nil _ _ (by decide)
  · rw [hhero]
    apply apply_length_constraints_hero_ne_nil
    exact fill_field_ne_nil _ _ (by decide)
  · rw [hper]
    exact fill_field_ne_nil _ _ (by decide)
  · rw [hes]
    exact fill_field_ne_nil _ _ (by decide)
  · rw [heb]
    exact fill_field_ne_nil _ _ (by decide)

/-- C2: two feature names are treated as duplicates exactly when the Jaccard
similarity of their whitespace-split word sets reaches the 0.8 threshold; the
dedup pass is greedy, order-preserving and keeps first occurrences (its output
is a sublist of its input); on the regression input
["Portable Design", "Portable", "4K Display"] the similarity of
"portable design" vs "portable" is 1/2 < 0.8, so all three features survive. -/
theorem claim_C2_dedupe_jaccard_threshold :
    (∀ n1 n2 : List Char,
      names_similar n1 n2 (0.8 : ℚ) = true ↔
        (0.8 : ℚ) ≤ jaccard_similarity n1 n2) ∧
    (∀ l : List MarketingFeature, List.Sublist (deduplicate_features l) l) ∧
    jaccard_similarity "portable design".data "portable".data = 1 / 2 ∧
    ¬ ((0.8 : ℚ) ≤ 1 / 2) ∧
    names_similar "portable design".data "portable".data (0.8 : ℚ) = false ∧
    deduplicate_features c2_features = c2_features ∧
    (deduplicate_features c2_features).length = 3 := by
  refine ⟨names_similar_iff_jaccard, fun l => deduplicate_go_sublist l [],
    jaccard_pd_portable, by norm_num, ?_, dedupe_c2_eval, ?_⟩
  · have hns : ¬ (names_similar "portable design".data "portable".data (0.8 : ℚ)
        = true) := by
      rw [names_similar_iff_jaccard, jaccard_pd_portable]
      norm_num
    exact Bool.eq_false_iff.mpr hns
  · rw [dedupe_c2_eval]
    rfl

/-- C3: `_rank_features` is renumbering after a stable sort by
(importance_rank ascending, confidence descending): the sorted list is a
permutation of the input, is sorted for that key, and the final ranks are
exactly 1..N in order; on features with ranks [3,1,2] and confidences
[0.7,0.9,0.8] the result is the rank-1, rank-2 and rank-3 items in that order,
renumbered [1,2,3]. -/
theorem claim_C3_rank_features_sorts_and_renumbers :
    (∀ l : List MarketingFeature,
      rank_features l = renumber_from 1 (List.insertionSort featureKeyLe l)) ∧
    (∀ l : List MarketingFeature,
      List.Sorted featureKeyLe (List.insertionSort featureKeyLe l)) ∧
    (∀ l : List MarketingFeature,
      List.Perm (List.insertionSort featureKeyLe l) l) ∧
    (∀ l : List MarketingFeature,
      (rank_features l).map (fun f => f.importance_rank) =
        (List.range l.length).map (fun i : Nat => 1 + (i : Int))) ∧
    rank_features [c3_a, c3_b, c3_c] =
      [{ c3_b with importance_rank := 1 }, { c3_c with importance_rank := 2 },
       { c3_a with importance_rank := 3 }] := by
  refine ⟨fun l => rfl, List.sorted_insertionSort featureKeyLe,
    List.perm_insertionSort featureKeyLe, ?_, rfl⟩
  intro l
  unfold rank_features
  rw [renumber_from_map_rank 1, (List.perm_insertionSort featureKeyLe l).length_eq]

/-- C4 counterexample: normalizing a record whose headline has 61 characters
with the "short" tier yields a headline of 63 characters (the 60-character
prefix plus the 3-character ellipsis), which exceeds the claimed 60-character
bound. -/
theorem claim_C4_counterexample :
    (post_process_storyline c4_raw "playful".data "short".data).headline.length = 63 ∧
    ¬ ((post_process_storyline c4_raw "playful".data "short".data).headline.length
        ≤ 60) := by
  decide

/-- C4 (amended): for the "short" tier the headline of the returned package is
at most 63 characters — an over-60-character headline is truncated to its first
60 characters plus the 3-character ellipsis "..." — while the "medium" and
"long" tiers perform no truncation of the headline. -/
theorem claim_C4_short_headline_at_most_63 (d : RawStoryline) (tone : List Char) :
    (post_process_storyline d tone "short".data).headline.length ≤ 63 ∧
    (post_process_storyline d tone "medium".data).headline =
      (storyline_defaults_applied d).headline ∧
    (post_process_storyline d tone "long".data).headline =
      (storyline_defaults_applied d).headline := by
  refine ⟨?_, ?_, ?_⟩
  · rw [post_process_headline]
    exact apply_length_constraints_short_headline_le _
  · rw [post_process_headline, apply_length_constraints_not_short _ _ (by decide)]
  · rw [post_process_headline, apply_length_constraints_not_short _ _ (by decide)]

/-- C5 counterexample: a successful `_generate_once` on a well-formed reply
whose tagline has 3 words and whose narrative has 4 words returns them with
those word counts unchanged — 3 < 10 and 4 < 100 — refuting "never below 10
words" and "padded to at least 100 words". -/
theorem claim_C5_counterexample :
    generate_once 200 c5_content "llama2".data =
      GenOutcome.success "Just do it".data "Buy this great product".data
        "llama2".data ∧
    (pySplit "Just do it".data).length = 3 ∧
    (pySplit "Buy this great product".data).length = 4 := by
  decide

/-- C5 (amended): the returned tagline is clipped to at most 15 words and the
returned narrative to at most 150 words; the blank-padding branches append only
empty strings, which add whitespace and no words, so an under-10-word tagline
keeps at most its original word count (exactly its original words whenever the
joined text fits the 120-character cap) and an under-100-word narrative keeps
exactly its original words — the word counts are never raised towards 10 or
100. -/
theorem claim_C5_enforce_lengths_clips_but_never_pads (t n : List Char) :
    (pySplit (enforce_lengths t n).1).length ≤ 15 ∧
    (pySplit (enforce_lengths t n).2).length ≤ 150 ∧
    ((pySplit t).length < 10 →
      (pySplit (enforce_lengths t n).1).length ≤ (pySplit t).length) ∧
    ((pySplit t).length < 10 → (pyJoin (pySplit t)).length ≤ 120 →
      (enforce_lengths t n).1 = pyJoin (pySplit t)) ∧
    ((pySplit n).length < 100 →
      (enforce_lengths t n).2 = pyJoin (pySplit n)) :=
  ⟨enforce_tagline_le15 t n, enforce_narrative_le150 t n,
   enforce_tagline_under10_wc t n, enforce_tagline_under10_cap t n,
   enforce_narrative_under100 t n⟩

/-- C5 witness: the amended theorem applied to a concrete 3-word tagline and
2-word narrative. -/
theorem claim_C5_witness :
    (pySplit "Just do it".data).length < 10 ∧
    (pyJoin (pySplit "Just do it".data)).length ≤ 120 ∧
    (pySplit "ok then".data).length < 100 ∧
    (enforce_lengths "Just do it".data "ok then".data).1 =
      pyJoin (pySplit "Just do it".data) ∧
    (enforce_lengths "Just do it".data "ok then".data).2 =
      pyJoin (pySplit "ok then".data) :=
  ⟨by decide, by decide, by decide,
   (claim_C5_enforce_lengths_clips_but_never_pads "Just do it".data
      "ok then".data).2.2.2.1 (by decide) (by decide),
   (claim_C5_enforce_lengths_clips_but_never_pads "Just do it".data
      "ok then".data).2.2.2.2 (by decide)⟩

/-- C6: evaluated in an environment where the first candidate model fails with
the client-side status 400 and the second succeeds, `generate_storyline`
advances to the second candidate and returns its result.  The source's
`status == 500` test is vacuous (its `continue` is the last statement of the
loop body), so the orchestrator advances on every failure, contradicting the
claim that it advances only on HTTP 500. -/
theorem claim_C6_advances_on_client_error :
    c6_attempt "llama2".data = GenOutcome.failure "API error 400".data (some 400) ∧
    generate_storyline_ollama true ["llama2".data, "llama3.2:1b".data] c6_attempt =
      GenOutcome.success "tag".data "story".data "llama3.2:1b".data := by
  decide

/-- C7: whenever a pipeline run fails — validation error, LLM/backend error, or
unparseable output — the cache is returned unchanged: nothing is inserted or
overwritten, for both `FeatureExtractor.extract_features` and
`StoryGenerator.generate_storyline`. -/
theorem claim_C7_failure_leaves_cache_unchanged :
    (∀ (cache : Option FeatureCache) (product_prompt : List Char)
        (max_features : Int) (chat_result : Except (List Char) (List Char))
        (parse_result : List Char → Except (List Char) (List RawFeatureData))
        (e : PipelineError),
      (extract_features cache product_prompt max_features chat_result
          parse_result).1 = .error e →
      (extract_features cache product_prompt max_features chat_result
          parse_result).2 = cache) ∧
    (∀ (cache : Option StoryCache) (product_prompt : List Char)
        (features : List MarketingFeature) (tone length : List Char)
        (audience : Option (List Char))
        (chat_result : Except (List Char) (List Char))
        (parse_result : List Char → Except (List Char) RawStoryline)
        (e : PipelineError),
      (story_generate_storyline cache product_prompt features tone length
          audience chat_result parse_result).1 = .error e →
      (story_generate_storyline cache product_prompt features tone length
          audience chat_result parse_result).2 = cache) := by
  constructor
  · intro cache pp mf ch pr e h
    by_cases h1 : pyStrip pp = []
    · simp [extract_features, h1]
    by_cases h2 : mf < 1 ∨ 50 < mf
    · simp [extract_features, h1, h2]
    cases h3 : cache.bind (fun c => c.lookup (feature_cache_key pp mf)) with
    | some v => simp [extract_features, h1, h2, h3]
    | none =>
      cases ch with
      | error e' => simp [extract_features, h1, h2, h3]
      | ok resp =>
        cases h4 : pr resp with
        | error e' => simp [extract_features, h1, h2, h3, h4]
        | ok fd =>
          exfalso
          simp [extract_features, h1, h2, h3, h4] at h
  · intro cache pp fs tone length aud ch pr e h
    by_cases h1 : pyStrip pp = []
    · simp [story_generate_storyline, h1]
    by_cases h2 : fs = []
    · simp [story_generate_storyline, h1, h2]
    cases h3 : cache.bind
        (fun c => c.lookup (story_cache_key pp fs tone length aud)) with
    | some v => simp [story_generate_storyline, h1, h2, h3]
    | none =>
      cases ch with
      | error e' => simp [story_generate_storyline, h1, h2, h3]
      | ok resp =>
        cases h4 : pr resp with
        | error e' => simp [story_generate_storyline, h1, h2, h3, h4]
        | ok sd =>
          exfalso
          simp [story_generate_storyline, h1, h2, h3, h4] at h

/-- C7 witness: failing calls (empty prompt) against non-empty caches leave
each cache exactly as it was, so the previously cached results stay
retrievable. -/
theorem claim_C7_witness :
    (extract_features (some c7_feature_cache) "".data 10 (.error "x".data)
        (fun _ => .error "y".data)).1 =
      .error (.valueError "Product prompt cannot be empty".data) ∧
    (extract_features (some c7_feature_cache) "".data 10 (.error "x".data)
        (fun _ => .error "y".data)).2 = some c7_feature_cache ∧
    (story_generate_storyline (some c7_story_cache) "".data [] "friendly".data
        "medium".data none (.error "x".data) (fun _ => .error "y".data)).1 =
      .error (.valueError "Product prompt cannot be empty".data) ∧
    (story_generate_storyline (some c7_story_cache) "".data [] "friendly".data
        "medium".data none (.error "x".data) (fun _ => .error "y".data)).2 =
      some c7_story_cache :=
  ⟨rfl,
   claim_C7_failure_leaves_cache_unchanged.1 (some c7_feature_cache) "".data 10
     (.error "x".data) (fun _ => .error "y".data)
     (.valueError "Product prompt cannot be empty".data) rfl,
   rfl,
   claim_C7_failure_leaves_cache_unchanged.2 (some c7_story_cache) "".data []
     "friendly".data "medium".data none (.error "x".data)
     (fun _ => .error "y".data)
     (.valueError "Product prompt cannot be empty".data) rfl⟩

/-- C8: `extract_features` yields a `ValueError` exactly when the trimmed
product prompt is empty or `max_features` lies outside [1, 50]; in particular
`max_features = 0` and `51` raise it, while `1` and `50` do not (any failure
there is an `LLMError`, not a validation error). -/
theorem claim_C8_validation_iff :
    (∀ (cache : Option FeatureCache) (product_prompt : List Char)
        (max_features : Int) (chat_result : Except (List Char) (List Char))
        (parse_result : List Char → Except (List Char) (List RawFeatureData)),
      (∃ msg, (extract_features cache product_prompt max_features chat_result
          parse_result).1 = .error (.valueError msg)) ↔
        (pyStrip product_prompt = [] ∨ max_features < 1 ∨ 50 < max_features)) ∧
    (extract_features none "A great product".data 0 (.error "x".data)
        (fun _ => .error "y".data)).1 =
      .error (.valueError "max_features must be between 1 and 50".data) ∧
    (extract_features none "A great product".data 51 (.error "x".data)
        (fun _ => .error "y".data)).1 =
      .error (.valueError "max_features must be between 1 and 50".data) ∧
    (extract_features none "A great product".data 1 (.error "x".data)
        (fun _ => .error "y".data)).1 = .error (.llmError "x".data) ∧
    (extract_features none "A great product".data 50 (.error "x".data)
        (fun _ => .error "y".data)).1 = .error (.llmError "x".data) := by
  refine ⟨?_, rfl, rfl, rfl, rfl⟩
  intro cache pp mf ch pr
  constructor
  · rintro ⟨msg, h⟩
    by_cases h1 : pyStrip pp = []
    · exact Or.inl h1
    by_cases h2 : mf < 1 ∨ 50 < mf
    · exact Or.inr h2
    exfalso
    cases h3 : cache.bind (fun c => c.lookup (feature_cache_key pp mf)) with
    | some v => simp [extract_features, h1, h2, h3] at h
    | none =>
      cases ch with
      | error e' => simp [extract_features, h1, h2, h3] at h
      | ok resp =>
        cases h4 : pr resp with
        | error e' => simp [extract_features, h1, h2, h3, h4] at h
        | ok fd => simp [extract_features, h1, h2, h3, h4] at h
  · intro h
    by_cases h1 : pyStrip pp = []
    · exact ⟨"Product prompt cannot be empty".data, by simp [extract_features, h1]⟩
    · have h2 : mf < 1 ∨ 50 < mf := by tauto
      exact ⟨"max_features must be between 1 and 50".data,
        by simp [extract_features, h1, h2]⟩

/-- C9: for every JSON object text `J` (first character `\x7b`, last character
`\x7d`), wrapping it in a triple-backtick code fence — with the `json` language
tag or without a tag — and parsing yields exactly what parsing the bare text
yields: the llm-client fence stripper returns `J` itself in all three cases, and
the scene generator's brace-span extraction returns `J` under any brace-free
wrapper, so any parse function applied afterwards gives identical results. -/
theorem claim_C9_fenced_json_parses_identically (J : List Char)
    (hh : ∃ t, J = '\x7b' :: t) (hl : ∃ t, J.reverse = '\x7d' :: t) :
    (∀ {β : Type} (loads : List Char → β),
      loads (extract_json_content ("```json\n".data ++ J ++ "\n```".data)) =
        loads (extract_json_content J) ∧
      loads (extract_json_content ("```\n".data ++ J ++ "\n```".data)) =
        loads (extract_json_content J)) ∧
    extract_json_content J = J ∧
    (∀ (pre post : List Char), '\x7b' ∉ pre → '\x7d' ∉ post →
      ∀ {β : Type} (loads : List Char → β),
        loads (extract_scene_span (pre ++ (J ++ post))) =
          loads (extract_scene_span J)) ∧
    extract_scene_span J = J := by
  refine ⟨?_, extract_json_content_bare J hh hl, ?_,
    extract_scene_span_self J hh hl⟩
  · intro β loads
    rw [extract_json_content_json_fence J hh hl,
      extract_json_content_plain_fence J hh hl,
      extract_json_content_bare J hh hl]
    exact ⟨rfl, rfl⟩
  · intro pre post hpre hpost β loads
    rw [extract_scene_span_wrap pre J post hpre hpost hh hl,
      extract_scene_span_self J hh hl]

/-- C9 witness: the theorem applied to the concrete scenes object
`\x7b"scenes": [1]\x7d`, with a json-tagged fence and a noisy brace-free
wrapper. -/
theorem claim_C9_witness :
    extract_json_content ("```json\n".data ++ c9_json ++ "\n```".data) =
      extract_json_content c9_json ∧
    extract_scene_span ("model commentary ".data ++ (c9_json ++ " extra".data)) =
      extract_scene_span c9_json := by
  have h := claim_C9_fenced_json_parses_identically c9_json
    ⟨"\"scenes\": [1]\x7d".data, by decide⟩
    ⟨("\x7b\"scenes\": [1]".data).reverse, by decide⟩
  exact ⟨(h.1 id).1,
    h.2.2.1 "model commentary ".data " extra".data (by decide) (by decide) id⟩

/-- C10: applying `_deduplicate_features` and `_rank_features` to a list that
is already deduplicated (deduplication returns it unchanged) and already ranked
(importance_rank contiguous 1..N in list order) returns the same list
unchanged. -/
theorem claim_C10_dedupe_rank_idempotent (l : List MarketingFeature)
    (hded : deduplicate_features l = l)
    (hrank : l.map (fun f => f.importance_rank) =
      (List.range l.length).map (fun i : Nat => 1 + (i : Int))) :
    rank_features (deduplicate_features l) = l := by
  rw [hded]
  unfold rank_features
  rw [List.Sorted.insertionSort_eq (sorted_of_rank_range 1 l hrank)]
  exact renumber_from_eq_self 1 l hrank

/-- C10 witness: the theorem applied to a concrete already-deduplicated,
already-ranked two-feature list. -/
theorem claim_C10_witness :
    deduplicate_features c10_features = c10_features ∧
    c10_features.map (fun f => f.importance_rank) =
      (List.range c10_features.length).map (fun i : Nat => 1 + (i : Int)) ∧
    rank_features (deduplicate_features c10_features) = c10_features :=
  ⟨dedupe_c10_eval, by decide,
   claim_C10_dedupe_rank_idempotent c10_features dedupe_c10_eval (by decide)⟩

end MarketingStoryline
